import Mathlib

/-!
Verification of the youtube-converter backend against its specification.

The embedding below follows the two source files of the repository:

* `server.js` (second document in the file, the `@distube/ytdl-core`
  variant with the in-memory `infoCache`): `getCachedInfo`, the three
  endpoints `/api/info`, `/api/download/mp3`, `/api/download/mp4`, the
  URL-validation prefix, the title sanitization and the response headers.
* `src/unnamed/part_000` (the cookie-agent variant): the catch-block
  error classification of `/api/info` (429 detection by message
  substring) and its 100-character title truncation.

External library calls (`ytdl.getInfo`, `ytdl.validateURL`,
`ytdl.getURLVideoID`, `ytdl.chooseFormat`, `ytdl.downloadFromInfo`) are
the out-of-scope resolver collaborator; they are abstracted as
parameters, or, for `chooseFormat`, modelled from the specification's
Format Selector contract (so marked at the definition).

Temporal and concurrency claims are settled over a small event-trace
semantics of the Node program around `getCachedInfo`: requests start the
synchronous body of `getCachedInfo` (identifier extraction plus cache
lookup up to the `await ytdl.getInfo` suspension point), fetches settle
later, and each `setTimeout`-scheduled deletion may run at any time at
or after its due time (the event loop gives no upper bound on timer
delay).
-/

namespace YtConv

/-- One selectable rendition, as consumed from the resolver
(`info.formats` entries): container, the three flags tested by the mp4
filter, a quality/bitrate ranking and the opaque stream locator. -/
structure Format where
  container : String
  hasAudio : Bool
  hasVideo : Bool
  isProgressive : Bool
  audioBitrate : Nat
  url : String
deriving DecidableEq

/-- The resolver metadata used by the handlers: `videoDetails.title`,
`videoDetails.author?.name`, `videoDetails.thumbnails`,
`videoDetails.lengthSeconds` and `info.formats`. -/
structure Info where
  title : String
  author : Option String
  thumbnails : List String
  lengthSeconds : Nat
  formats : List Format
deriving DecidableEq

/-- A resolver failure; only its message is inspected by the code
(`err.message` substring tests in `part_000`). -/
structure ResolveErr where
  msg : String
deriving DecidableEq

deriving instance DecidableEq for Except

/-- `leadsWith p s` holds when the character list `p` starts the list `s`. -/
def leadsWith : List Char → List Char → Bool
  | [], _ => true
  | _ :: _, [] => false
  | a :: as, b :: bs => a == b && leadsWith as bs

/-- `hasSub n h` holds when `n` occurs contiguously inside `h`. -/
def hasSub (needle : List Char) : List Char → Bool
  | [] => leadsWith needle []
  | b :: bs => leadsWith needle (b :: bs) || hasSub needle bs

/-- JavaScript `hay.includes(sub)`. -/
def containsSubstr (hay sub : String) : Bool :=
  hasSub sub.toList hay.toList

/-- part_000 `/api/info` catch: `error.message.includes('429') ||
error.message.includes('rate limit')`. -/
def isRateLimited (e : ResolveErr) : Bool :=
  containsSubstr e.msg "429" || containsSubstr e.msg "rate limit"

/-- `infoCache.get(id)` / `infoCache.has(id)` on the association-list
model of the JavaScript `Map`. -/
def lookupA (cache : List (String × Info)) (id : String) : Option Info :=
  (cache.find? (fun p => p.1 == id)).map (fun p => p.2)

/-- `infoCache.set(id, info)`: replace the value when the key is
present, otherwise append (a JavaScript `Map` keeps insertion order). -/
def setA (cache : List (String × Info)) (id : String) (v : Info) :
    List (String × Info) :=
  if cache.any (fun p => p.1 == id) then
    cache.map (fun p => if p.1 == id then (id, v) else p)
  else cache ++ [(id, v)]

/-- `infoCache.delete(id)`. -/
def delA (cache : List (String × Info)) (id : String) :
    List (String × Info) :=
  cache.filter (fun p => p.1 != id)

theorem lookupA_delA (cache : List (String × Info)) (id : String) :
    lookupA (delA cache id) id = none := by
  induction cache with
  | nil => rfl
  | cons p rest ih =>
    by_cases h : p.1 = id
    · have hf : (p.1 != id) = false := by simp [bne, h]
      simp only [delA, List.filter_cons, hf, Bool.false_eq_true, if_neg,
        not_false_iff]
      simp only [delA] at ih
      exact ih
    · have ht : (p.1 != id) = true := by simp [bne, h]
      have hb : (p.1 == id) = false := by simp [h]
      simp only [delA, List.filter_cons, ht, if_pos]
      simp only [lookupA, List.find?, hb]
      simp only [delA, lookupA] at ih
      simp [ih]

theorem lookupA_map_set (cache : List (String × Info)) (id : String) (v : Info) :
    lookupA (cache.map (fun p => if p.1 == id then (id, v) else p)) id =
      if cache.any (fun p => p.1 == id) then some v else none := by
  induction cache with
  | nil => rfl
  | cons p rest ih =>
    by_cases h : p.1 = id
    · simp [lookupA, List.find?, h, List.any_cons]
    · have hb : (p.1 == id) = false := by simp [h]
      simp only [List.map_cons, hb, if_neg, Bool.false_eq_true, not_false_iff,
        ite_false, List.any_cons, Bool.false_or]
      simpa [lookupA, List.find?, hb] using ih

theorem lookupA_append_new (cache : List (String × Info)) (id : String) (v : Info)
    (h : cache.any (fun p => p.1 == id) = false) :
    lookupA (cache ++ [(id, v)]) id = some v := by
  induction cache with
  | nil => simp [lookupA, List.find?]
  | cons p rest ih =>
    simp only [List.any_cons, Bool.or_eq_false_iff] at h
    simp [lookupA, List.find?, h.1]
    simpa [lookupA] using ih h.2

theorem lookupA_setA (cache : List (String × Info)) (id : String) (v : Info) :
    lookupA (setA cache id v) id = some v := by
  unfold setA
  by_cases h : cache.any (fun p => p.1 == id) = true
  · rw [if_pos h, lookupA_map_set, if_pos h]
  · rw [if_neg h]
    exact lookupA_append_new cache id v (Bool.eq_false_iff.mpr h)

/-- `1000 * 60 * 30`: the `setTimeout` delay used by `getCachedInfo`. -/
def TTLms : Nat := 1000 * 60 * 30

/-- The progress of one request through `getCachedInfo`: not yet
started, suspended at `await ytdl.getInfo(url)` (the identifier is
already computed and the cache lookup missed), or completed with the
value the enclosing handler observes. -/
inductive TaskPhase where
  | awaitingFetch (id : String)
  | done (r : Except ResolveErr Info)
deriving DecidableEq

/-- The shared mutable state of the Node process around
`getCachedInfo`: the `infoCache` map, the pending `setTimeout`
deletions as (due time, id) pairs, the number of `ytdl.getInfo`
invocations so far and the per-request tasks. -/
structure SysState where
  cache : List (String × Info)
  timers : List (Nat × String)
  calls : Nat
  tasks : List TaskPhase
deriving DecidableEq

/-- The empty server state at startup. -/
def initState : SysState := ⟨[], [], 0, []⟩

/-- Event-loop events. `arrive url` runs the synchronous body of
`getCachedInfo(url)` for a new request up to its first suspension point
(identifier extraction and cache check happen atomically: JavaScript is
single-threaded and nothing can interleave between `infoCache.has(id)`
and starting `ytdl.getInfo(url)`). `fetchOk`/`fetchErr i _` settle the
fetch task `i` awaits and run its continuation. `timerFire id` runs one
due `setTimeout` deletion callback; the event loop may run it any time
at or after its due time. -/
inductive Event where
  | arrive (url : String)
  | fetchOk (i : Nat) (info : Info)
  | fetchErr (i : Nat) (e : ResolveErr)
  | timerFire (id : String)
deriving DecidableEq

/-- One event-loop step at time `te.1`, translated from
`getCachedInfo` in server.js:

```
const id = ytdl.getURLVideoID(url);
if (infoCache.has(id)) return infoCache.get(id);
const info = await ytdl.getInfo(url);
infoCache.set(id, info);
setTimeout(() => infoCache.delete(id), 1000 * 60 * 30);
return info;
```

`getId` abstracts `ytdl.getURLVideoID`. Events that are not enabled
leave the state unchanged (`validEvent` below singles out the enabled
ones). -/
def exec (getId : String → String) (st : SysState) (te : Nat × Event) :
    SysState :=
  match te.2 with
  | .arrive url =>
    let id := getId url
    match lookupA st.cache id with
    | some info => { st with tasks := st.tasks ++ [.done (.ok info)] }
    | none =>
      { st with tasks := st.tasks ++ [.awaitingFetch id],
                calls := st.calls + 1 }
  | .fetchOk i info =>
    match st.tasks.get? i with
    | some (.awaitingFetch id) =>
      { st with cache := setA st.cache id info,
                timers := st.timers ++ [(te.1 + TTLms, id)],
                tasks := st.tasks.set i (.done (.ok info)) }
    | _ => st
  | .fetchErr i e =>
    match st.tasks.get? i with
    | some (.awaitingFetch _) =>
      { st with tasks := st.tasks.set i (.done (.error e)) }
    | _ => st
  | .timerFire id =>
    if st.timers.any (fun p => p.2 == id && Nat.ble p.1 te.1) then
      { st with timers := st.timers.filter (fun p => p.2 != id),
                cache := delA st.cache id }
    else st

/-- A timed event is enabled: fetch settlements only for tasks actually
suspended on a fetch, and a timer callback only once its due time has
been reached (it may run arbitrarily later — the event loop gives no
upper bound). -/
def validEvent (st : SysState) (te : Nat × Event) : Bool :=
  match te.2 with
  | .arrive _ => true
  | .fetchOk i _ =>
    match st.tasks.get? i with
    | some (.awaitingFetch _) => true
    | _ => false
  | .fetchErr i _ =>
    match st.tasks.get? i with
    | some (.awaitingFetch _) => true
    | _ => false
  | .timerFire id => st.timers.any (fun p => p.2 == id && Nat.ble p.1 te.1)

/-- Every event of the schedule is enabled in the state it runs in. -/
def validSeq (getId : String → String) :
    SysState → List (Nat × Event) → Bool
  | _, [] => true
  | st, te :: rest =>
    validEvent st te && validSeq getId (exec getId st te) rest

/-- Event times never decrease along the schedule. -/
def timesMono : List (Nat × Event) → Bool
  | [] => true
  | [_] => true
  | a :: b :: rest => Nat.ble a.1 b.1 && timesMono (b :: rest)

/-- Run a schedule from the startup state. -/
def runSched (getId : String → String) (sched : List (Nat × Event)) :
    SysState :=
  sched.foldl (exec getId) initState

/-- Per-request projection of `getCachedInfo`: result, cache after the
call, number of `ytdl.getInfo` attempts made, and the backoff delays
performed (the code performs none — there is no retry loop and no sleep
in `getCachedInfo`). The fetch oracle is indexed by attempt number so
that the absence of retries is observable. -/
structure ResolveOutcome where
  result : Except ResolveErr Info
  cacheAfter : List (String × Info)
  attempts : Nat
  delays : List Nat
deriving DecidableEq

/-- Functional form of `getCachedInfo` from server.js: compute the
identifier, return a cached value without any upstream call, otherwise
make exactly one `ytdl.getInfo` attempt; on success store the result,
on failure propagate the error leaving the cache untouched. -/
def getCachedInfoN (getId : String → String)
    (cache : List (String × Info))
    (fetch : Nat → Except ResolveErr Info) (url : String) :
    ResolveOutcome :=
  let id := getId url
  match lookupA cache id with
  | some info => ⟨.ok info, cache, 0, []⟩
  | none =>
    match fetch 0 with
    | .ok info => ⟨.ok info, setA cache id info, 1, []⟩
    | .error e => ⟨.error e, cache, 1, []⟩

/-- Modelled from the spec: the Metadata Cache retry policy of §4.1,
which is absent from the code — up to 2 additional attempts after a
transient failure, waiting 500ms before the first retry and 1000ms
before the second, rate-limited failures never retried, the last error
surfaced after exhaustion. Returns the result and the list of backoff
delays performed. Used only to compare the code's behaviour with the
claimed one. -/
def resolveSpecModel (fetch : Nat → Except ResolveErr Info) :
    Except ResolveErr Info × List Nat :=
  match fetch 0 with
  | .ok v => (.ok v, [])
  | .error e =>
    if isRateLimited e then (.error e, []) else
    match fetch 1 with
    | .ok v => (.ok v, [500])
    | .error e1 =>
      if isRateLimited e1 then (.error e1, [500]) else
      match fetch 2 with
      | .ok v => (.ok v, [500, 1000])
      | .error e2 => (.error e2, [500, 1000])

/-- JavaScript `\w` without flags: ASCII letters, digits and underscore. -/
def isWordChar (c : Char) : Bool := c.isAlphanum || c == '_'

/-- JavaScript `\s`, restricted to its ASCII members (the titles the
claims exercise are ASCII; the wider Unicode class only adds more
whitespace code points to the kept set). -/
def isSpaceChar (c : Char) : Bool :=
  c == ' ' || c == '\t' || c == '\n' || c == '\r' || c == '\x0b' ||
    c == '\x0c'

/-- The character class kept by `title.replace(/[^\w\s-]/g, '')`. -/
def keepChar (c : Char) : Bool := isWordChar c || isSpaceChar c || c == '-'

/-- server.js: `info.videoDetails.title.replace(/[^\w\s-]/g, '').slice(0, 80)`.
After the replace only ASCII characters remain, so UTF-16 code units
coincide with characters and `slice(0, 80)` is `take 80`. -/
def sanitizeTitle80 (t : String) : String :=
  String.mk ((t.toList.filter keepChar).take 80)

/-- part_000: `info.videoDetails.title.replace(/[^\w\s-]/g, '').substring(0, 100)`. -/
def sanitizeTitle100 (t : String) : String :=
  String.mk ((t.toList.filter keepChar).take 100)

/-- The character class the claim asserts for sanitized filenames:
letters, digits, whitespace or hyphen — written from the claim's words,
for comparison with `keepChar` (which also keeps underscore). -/
def specAllowedChar (c : Char) : Bool :=
  c.isAlpha || c.isDigit || isSpaceChar c || c == '-'

/-- The predicate of the mp4 handler's filter:
`f.container === 'mp4' && f.hasAudio && f.hasVideo && f.isProgressive`. -/
def mp4Filter (f : Format) : Bool :=
  f.container == "mp4" && f.hasAudio && f.hasVideo && f.isProgressive

/-- Audio-only formats, the class `filter: 'audioonly'` selects from. -/
def audioOnlyF (f : Format) : Bool := f.hasAudio && !f.hasVideo

/-- Keep the better of the accumulator `g` and the next candidate `f`;
on ties the earlier-listed accumulator wins. -/
def betterOf (g f : Format) : Format :=
  if g.audioBitrate < f.audioBitrate then f else g

/-- Best candidate starting from `g`, scanning left to right. -/
def bestFrom (g : Format) : List Format → Format
  | [] => g
  | f :: rest => bestFrom (betterOf g f) rest

/-- Highest-ranking candidate of a list, ties broken by first-listed
order; `none` on the empty list. -/
def pickBest : List Format → Option Format
  | [] => none
  | f :: rest => some (bestFrom f rest)

/-- Modelled from the spec: the candidate class of `selectAudio` (§4.2)
— audio-only formats when any exist, otherwise every format carrying
audio. The code delegates this to the external
`ytdl.chooseFormat(info.formats, { quality: 'highestaudio', filter:
'audioonly' })`, whose body is not part of this repository. -/
def audioCands (formats : List Format) : List Format :=
  let ao := formats.filter audioOnlyF
  if ao.isEmpty then formats.filter (fun f => f.hasAudio) else ao

/-- Modelled from the spec: `selectAudio` of §4.2 — among formats with
audio (audio-only preferred when present) choose the highest quality
ranking, ties broken by first-listed resolver order. -/
def selectAudio (formats : List Format) : Option Format :=
  pickBest (audioCands formats)

theorem bestFrom_ge (l : List Format) :
    ∀ g : Format, g.audioBitrate ≤ (bestFrom g l).audioBitrate := by
  induction l with
  | nil => intro g; exact Nat.le_refl _
  | cons f rest ih =>
    intro g
    have h1 : g.audioBitrate ≤ (betterOf g f).audioBitrate := by
      unfold betterOf
      by_cases h : g.audioBitrate < f.audioBitrate
      · rw [if_pos h]; exact Nat.le_of_lt h
      · rw [if_neg h]
    exact Nat.le_trans h1 (ih (betterOf g f))

theorem bestFrom_max (l : List Format) :
    ∀ g x : Format, x ∈ l →
      x.audioBitrate ≤ (bestFrom g l).audioBitrate := by
  induction l with
  | nil => intro g x hx; cases hx
  | cons f rest ih =>
    intro g x hx
    rcases List.mem_cons.mp hx with h | h
    · subst h
      have h1 : x.audioBitrate ≤ (betterOf g x).audioBitrate := by
        unfold betterOf
        by_cases hlt : g.audioBitrate < x.audioBitrate
        · rw [if_pos hlt]
        · rw [if_neg hlt]; exact Nat.le_of_not_lt hlt
      exact Nat.le_trans h1 (bestFrom_ge rest (betterOf g x))
    · exact ih (betterOf g f) x h

theorem bestFrom_first_max (l : List Format) :
    ∀ g : Format, ∃ l₁ l₂,
      g :: l = l₁ ++ bestFrom g l :: l₂ ∧
      (∀ x ∈ l₁, x.audioBitrate < (bestFrom g l).audioBitrate) ∧
      (∀ x ∈ l₂, x.audioBitrate ≤ (bestFrom g l).audioBitrate) := by
  induction l with
  | nil =>
    intro g
    refine ⟨[], [], rfl, ?_, ?_⟩ <;> intro x hx <;> simp at hx
  | cons f rest ih =>
    intro g
    by_cases hgf : g.audioBitrate < f.audioBitrate
    · have hb : betterOf g f = f := by unfold betterOf; rw [if_pos hgf]
      have heq : bestFrom g (f :: rest) = bestFrom f rest := by
        show bestFrom (betterOf g f) rest = bestFrom f rest
        rw [hb]
      obtain ⟨l₁, l₂, hsplit, hlt, hle⟩ := ih f
      refine ⟨g :: l₁, l₂, ?_, ?_, ?_⟩
      · rw [heq]; simpa using hsplit
      · intro x hx
        rw [heq]
        rcases List.mem_cons.mp hx with h | h
        · subst h
          exact Nat.lt_of_lt_of_le hgf (bestFrom_ge rest f)
        · exact hlt x h
      · intro x hx; rw [heq]; exact hle x hx
    · have hb : betterOf g f = g := by unfold betterOf; rw [if_neg hgf]
      have heq : bestFrom g (f :: rest) = bestFrom g rest := by
        show bestFrom (betterOf g f) rest = bestFrom g rest
        rw [hb]
      obtain ⟨l₁, l₂, hsplit, hlt, hle⟩ := ih g
      rcases l₁ with _ | ⟨g', l₁'⟩
      · have hg : g = bestFrom g rest := by
          have := congrArg (fun l => l.head?) hsplit
          simpa using this
        have hrest : rest = l₂ := by
          have := congrArg (fun l => l.tail) hsplit
          simpa using this
        refine ⟨[], f :: rest, ?_, ?_, ?_⟩
        · rw [heq]
          simpa using hg
        · intro x hx; simp at hx
        · intro x hx
          rw [heq]
          rcases List.mem_cons.mp hx with h | h
          · subst h
            exact Nat.le_trans (Nat.le_of_not_lt hgf) (bestFrom_ge rest g)
          · rw [hrest] at h; exact hle x h
      · have hg : g' = g := by
          have := congrArg (fun l => l.head?) hsplit
          simpa using this.symm
        subst hg
        have hrest : rest = l₁' ++ bestFrom g' rest :: l₂ := by
          have := congrArg (fun l => l.tail) hsplit
          simpa using this
        refine ⟨g' :: f :: l₁', l₂, ?_, ?_, ?_⟩
        · rw [heq]
          simp only [List.cons_append, List.cons.injEq, true_and]
          exact hrest
        · intro x hx
          rw [heq]
          have hgb : g'.audioBitrate < (bestFrom g' rest).audioBitrate :=
            hlt g' (by simp)
          rcases List.mem_cons.mp hx with h | h
          · subst h; exact hgb
          · rcases List.mem_cons.mp h with h' | h'
            · subst h'
              exact Nat.lt_of_le_of_lt (Nat.le_of_not_lt hgf) hgb
            · exact hlt x (by simp [h'])
        · intro x hx; rw [heq]; exact hle x hx

theorem pickBest_first_max (l : List Format) (hne : l ≠ []) :
    ∃ m l₁ l₂, pickBest l = some m ∧
      l = l₁ ++ m :: l₂ ∧
      (∀ x ∈ l₁, x.audioBitrate < m.audioBitrate) ∧
      (∀ x ∈ l₂, x.audioBitrate ≤ m.audioBitrate) := by
  match l, hne with
  | f :: rest, _ =>
    obtain ⟨l₁, l₂, hsplit, hlt, hle⟩ := bestFrom_first_max rest f
    exact ⟨bestFrom f rest, l₁, l₂, rfl, hsplit, hlt, hle⟩

theorem find_first_split {α : Type} (p : α → Bool) :
    ∀ (l : List α) (a : α), l.find? p = some a →
      ∃ l₁ l₂, l = l₁ ++ a :: l₂ ∧ (∀ b ∈ l₁, p b = false) ∧ p a = true := by
  intro l
  induction l with
  | nil => intro a h; cases h
  | cons x rest ih =>
    intro a h
    by_cases hx : p x = true
    · rw [List.find?_cons_of_pos _ hx] at h
      cases h
      refine ⟨[], rest, rfl, ?_, hx⟩
      intro b hb
      simp at hb
    · have hx' : p x = false := Bool.eq_false_iff.mpr hx
      rw [List.find?_cons_of_neg _ hx] at h
      obtain ⟨l₁, l₂, hsplit, hall, hpa⟩ := ih a h
      refine ⟨x :: l₁, l₂, by rw [hsplit]; rfl, ?_, hpa⟩
      intro b hb
      rcases List.mem_cons.mp hb with h' | h'
      · subst h'; exact hx'
      · exact hall b h'

/-- The JSON body of a successful `/api/info` response. -/
structure InfoView where
  title : String
  channel : String
  thumbnail : String
  duration : Nat
deriving DecidableEq

/-- server.js `/api/info` success projection:
`{ title, channel: v.author?.name || 'Unknown',
thumbnail: v.thumbnails[v.thumbnails.length - 1].url,
duration: v.lengthSeconds }`. With an empty thumbnail array the
JavaScript indexing throws (caught by the handler's catch block), hence
the `none` case. -/
def projectInfo (v : Info) : Option InfoView :=
  match v.thumbnails.getLast? with
  | none => none
  | some th =>
    some { title := v.title,
           channel := match v.author with
                      | none => "Unknown"
                      | some name => if name == "" then "Unknown" else name,
           thumbnail := th,
           duration := v.lengthSeconds }

/-- Observable effects of a download handler: explicit header writes
and the start of the piped byte stream, in program order. -/
inductive HandlerAction where
  | setHeader (name value : String)
  | streamBody (f : Format)
deriving DecidableEq

/-- The observable outcome of one endpoint invocation: HTTP status,
JSON error message (if any), info view (for `/api/info`), the ordered
header/stream actions (for the download endpoints), how many
`ytdl.getInfo` attempts were made, whether `getCachedInfo` (and with it
the cache) was entered at all, and the cache contents afterwards. -/
structure EndpointOutcome where
  status : Nat
  errorMsg : Option String
  view : Option InfoView
  actions : List HandlerAction
  resolverAttempts : Nat
  cacheRead : Bool
  cacheAfter : List (String × Info)
deriving DecidableEq

/-- The shared validation rejection of all three endpoints in
server.js: `return res.status(400).json({ error: 'Invalid media URL' })`,
issued before `getCachedInfo` is called. -/
def invalidOutcome (cache : List (String × Info)) : EndpointOutcome :=
  { status := 400, errorMsg := some "Invalid media URL", view := none,
    actions := [], resolverAttempts := 0, cacheRead := false,
    cacheAfter := cache }

/-- server.js `POST /api/info`. `validate` abstracts
`ytdl.validateURL`, `getId` abstracts `ytdl.getURLVideoID`, and
`fetch url` is the attempt oracle for `ytdl.getInfo(url)`. The catch
block returns 500 with `err.message || 'Failed to fetch media info'`
(the thumbnail-indexing failure of an empty thumbnail list lands in the
same catch; its library-generated message is abstracted by the
fallback text). -/
def infoEndpoint (validate : String → Bool) (getId : String → String)
    (fetch : String → Nat → Except ResolveErr Info)
    (cache : List (String × Info)) (urlBody : Option String) :
    EndpointOutcome :=
  match urlBody with
  | none => invalidOutcome cache
  | some url =>
    if validate url then
      let r := getCachedInfoN getId cache (fetch url) url
      match r.result with
      | .ok info =>
        match projectInfo info with
        | some v =>
          { status := 200, errorMsg := none, view := some v, actions := [],
            resolverAttempts := r.attempts, cacheRead := true,
            cacheAfter := r.cacheAfter }
        | none =>
          { status := 500, errorMsg := some "Failed to fetch media info",
            view := none, actions := [], resolverAttempts := r.attempts,
            cacheRead := true, cacheAfter := r.cacheAfter }
      | .error e =>
        { status := 500,
          errorMsg := some (if e.msg == "" then "Failed to fetch media info"
                            else e.msg),
          view := none, actions := [], resolverAttempts := r.attempts,
          cacheRead := true, cacheAfter := r.cacheAfter }
    else invalidOutcome cache

/-- server.js `POST /api/download/mp3`: validate, resolve through the
cache, select the audio format (spec-modelled `chooseFormat`, §4.2),
sanitize the title to 80 characters, then set `Content-Disposition`
and `Content-Type: audio/mpeg` before piping the stream. When the
selection finds nothing the external `chooseFormat` call fails and the
catch block answers 500 before any header is written (its
library-generated message is abstracted by the handler's fallback
text `Audio processing failed`). -/
def mp3Endpoint (validate : String → Bool) (getId : String → String)
    (fetch : String → Nat → Except ResolveErr Info)
    (cache : List (String × Info)) (urlBody : Option String) :
    EndpointOutcome :=
  match urlBody with
  | none => invalidOutcome cache
  | some url =>
    if validate url then
      let r := getCachedInfoN getId cache (fetch url) url
      match r.result with
      | .ok info =>
        match selectAudio info.formats with
        | some f =>
          { status := 200, errorMsg := none, view := none,
            actions :=
              [.setHeader "Content-Disposition"
                 ("attachment; filename=\"" ++ sanitizeTitle80 info.title ++
                   ".mp3\""),
               .setHeader "Content-Type" "audio/mpeg",
               .streamBody f],
            resolverAttempts := r.attempts, cacheRead := true,
            cacheAfter := r.cacheAfter }
        | none =>
          { status := 500, errorMsg := some "Audio processing failed",
            view := none, actions := [], resolverAttempts := r.attempts,
            cacheRead := true, cacheAfter := r.cacheAfter }
      | .error e =>
        { status := 500,
          errorMsg := some (if e.msg == "" then "Audio processing failed"
                            else e.msg),
          view := none, actions := [], resolverAttempts := r.attempts,
          cacheRead := true, cacheAfter := r.cacheAfter }
    else invalidOutcome cache

/-- server.js `POST /api/download/mp4`: validate, resolve through the
cache, pick the first progressive mp4 format with audio and video in
resolver order (spec-modelled `chooseFormat` with the boolean filter of
the source, §4.2), answer 400 `No compatible MP4 stream` when none
matches, otherwise set the headers and pipe. -/
def mp4Endpoint (validate : String → Bool) (getId : String → String)
    (fetch : String → Nat → Except ResolveErr Info)
    (cache : List (String × Info)) (urlBody : Option String) :
    EndpointOutcome :=
  match urlBody with
  | none => invalidOutcome cache
  | some url =>
    if validate url then
      let r := getCachedInfoN getId cache (fetch url) url
      match r.result with
      | .ok info =>
        match info.formats.find? mp4Filter with
        | some f =>
          { status := 200, errorMsg := none, view := none,
            actions :=
              [.setHeader "Content-Disposition"
                 ("attachment; filename=\"" ++ sanitizeTitle80 info.title ++
                   ".mp4\""),
               .setHeader "Content-Type" "video/mp4",
               .streamBody f],
            resolverAttempts := r.attempts, cacheRead := true,
            cacheAfter := r.cacheAfter }
        | none =>
          { status := 400, errorMsg := some "No compatible MP4 stream",
            view := none, actions := [], resolverAttempts := r.attempts,
            cacheRead := true, cacheAfter := r.cacheAfter }
      | .error e =>
        { status := 500,
          errorMsg := some (if e.msg == "" then "Video processing failed"
                            else e.msg),
          view := none, actions := [], resolverAttempts := r.attempts,
          cacheRead := true, cacheAfter := r.cacheAfter }
    else invalidOutcome cache

/-- One inbound client request as the transport layer sees it: client
address, arrival time (seconds) and the `url` field of the JSON body.
The server wires no rate-limiting middleware, so request handling never
reads `addr` or `time`. -/
structure ClientReq where
  addr : String
  time : Nat
  urlBody : Option String
deriving DecidableEq

/-- Sequential processing of `/api/info` requests by the server: each
request runs the handler on the current cache; there is no per-client
counter, window or any other gate in front of it. -/
def processInfoRequests (validate : String → Bool)
    (getId : String → String)
    (fetch : String → Nat → Except ResolveErr Info) :
    List (String × Info) → List ClientReq → List EndpointOutcome
  | _, [] => []
  | cache, r :: rs =>
    let o := infoEndpoint validate getId fetch cache r.urlBody
    o :: processInfoRequests validate getId fetch o.cacheAfter rs

/-- An HTTP error response as built by a catch block: status, the
`error` field of the JSON body, and the custom headers the handler set
(`res.set`/`res.header` calls — the catch blocks set none). -/
structure HttpResponse where
  status : Nat
  errorMsg : String
  headers : List (String × String)
deriving DecidableEq

/-- part_000 `/api/info` catch block:

```
if (error.message.includes('429') || error.message.includes('rate limit')) {
    return res.status(429).json({ error: 'YouTube is currently rate limiting requests. ...' });
}
res.status(500).json({ error: 'Failed to fetch video information. ...' });
```

No `Retry-After` header and no retry-after value are produced. -/
def part000InfoCatch (errMsg : String) : HttpResponse :=
  if containsSubstr errMsg "429" || containsSubstr errMsg "rate limit" then
    { status := 429,
      errorMsg := "YouTube is currently rate limiting requests. Please try again in a few minutes, or try a different video.",
      headers := [] }
  else
    { status := 500,
      errorMsg := "Failed to fetch video information. Please check the URL and try again.",
      headers := [] }

/-- server.js `/api/info` catch block: every resolver failure becomes a
500 with `err.message || 'Failed to fetch media info'` (production
mode; non-production additionally includes the stack, with the same
status). -/
def serverInfoCatch (errMsg : String) : HttpResponse :=
  { status := 500,
    errorMsg := if errMsg == "" then "Failed to fetch media info" else errMsg,
    headers := [] }

/-- Audio-only format with bitrate 256, for concrete instances. -/
def fmtAudio256 : Format := ⟨"webm", true, false, false, 256, "loc256"⟩

/-- Audio-only format with bitrate 128, for concrete instances. -/
def fmtAudio128 : Format := ⟨"webm", true, false, false, 128, "loc128"⟩

/-- Video-only format (no audio track), for concrete instances. -/
def fmtVideoOnly : Format := ⟨"mp4", false, true, false, 0, "locV"⟩

/-- Progressive mp4 format with both tracks, for concrete instances. -/
def fmtProg : Format := ⟨"mp4", true, true, true, 96, "locP"⟩

/-- Concrete resolver metadata used by witnesses and counterexamples. -/
def sampleInfo : Info :=
  ⟨"Sample Title", some "Chan", ["thumb1"], 212,
    [fmtVideoOnly, fmtProg, fmtAudio128, fmtAudio256]⟩

/-- A normalizer mapping every URL to one video identifier (two URLs
for the same resource share the identifier). -/
def idOf : String → String := fun _ => "dQw4w9WgXcQ"

/-- The identity normalizer, for witnesses with several identifiers. -/
def idFun : String → String := fun u => u

/-- A validator accepting everything. -/
def allValid : String → Bool := fun _ => true

/-- A validator rejecting everything. -/
def neverValid : String → Bool := fun _ => false

/-- A fetch oracle whose every attempt succeeds with `sampleInfo`. -/
def fetchOkOracle : String → Nat → Except ResolveErr Info :=
  fun _ _ => .ok sampleInfo

/-- A transient (non-rate-limited) upstream failure. -/
def errTransient : ResolveErr := ⟨"socket hang up"⟩

/-- An upstream rate-limit failure as `@distube/ytdl-core` reports it. -/
def err429 : ResolveErr := ⟨"Status code: 429"⟩

/-- A fetch oracle failing transiently on the first attempt and
succeeding on every later one. -/
def fetchFailThenOk : Nat → Except ResolveErr Info :=
  fun n => if n == 0 then .error errTransient else .ok sampleInfo

/-- C6: a request to `/api/info`, `/api/download/mp3` or
`/api/download/mp4` whose body URL is missing or fails validation is
answered 400 with body `{error: "Invalid media URL"}`, and neither the
resolver nor the cache is contacted. -/
theorem invalid_url_rejected_without_contact
    (validate : String → Bool) (getId : String → String)
    (fetch : String → Nat → Except ResolveErr Info)
    (cache : List (String × Info)) (urlBody : Option String)
    (h : urlBody = none ∨ ∃ u, urlBody = some u ∧ validate u = false) :
    infoEndpoint validate getId fetch cache urlBody = invalidOutcome cache ∧
    mp3Endpoint validate getId fetch cache urlBody = invalidOutcome cache ∧
    mp4Endpoint validate getId fetch cache urlBody = invalidOutcome cache ∧
    (invalidOutcome cache).status = 400 ∧
    (invalidOutcome cache).errorMsg = some "Invalid media URL" ∧
    (invalidOutcome cache).resolverAttempts = 0 ∧
    (invalidOutcome cache).cacheRead = false ∧
    (invalidOutcome cache).cacheAfter = cache := by
  rcases h with h | ⟨u, hu, hv⟩
  · subst h
    exact ⟨rfl, rfl, rfl, rfl, rfl, rfl, rfl, rfl⟩
  · subst hu
    refine ⟨?_, ?_, ?_, rfl, rfl, rfl, rfl, rfl⟩ <;>
      simp [infoEndpoint, mp3Endpoint, mp4Endpoint, hv]

/-- Witness for C6 at the spec's own end-to-end example input. -/
theorem invalid_url_rejected_witness :
    infoEndpoint neverValid idOf fetchOkOracle [] (some "not-a-url") =
      invalidOutcome [] ∧
    mp3Endpoint neverValid idOf fetchOkOracle [] (some "not-a-url") =
      invalidOutcome [] ∧
    mp4Endpoint neverValid idOf fetchOkOracle [] (some "not-a-url") =
      invalidOutcome [] :=
  ⟨(invalid_url_rejected_without_contact neverValid idOf fetchOkOracle []
      (some "not-a-url") (Or.inr ⟨"not-a-url", rfl, rfl⟩)).1,
   (invalid_url_rejected_without_contact neverValid idOf fetchOkOracle []
      (some "not-a-url") (Or.inr ⟨"not-a-url", rfl, rfl⟩)).2.1,
   (invalid_url_rejected_without_contact neverValid idOf fetchOkOracle []
      (some "not-a-url") (Or.inr ⟨"not-a-url", rfl, rfl⟩)).2.2.1⟩

/-- C10: when the upstream fetch fails, `getCachedInfo` leaves the
cache map unchanged — no entry is inserted or modified — so the next
request for the same identifier invokes the resolver again. -/
theorem failed_fetch_leaves_cache_unchanged
    (getId : String → String) (cache : List (String × Info))
    (fetch fetch2 : Nat → Except ResolveErr Info) (url : String)
    (e : ResolveErr)
    (hmiss : lookupA cache (getId url) = none)
    (hfail : fetch 0 = .error e) :
    (getCachedInfoN getId cache fetch url).result = .error e ∧
    (getCachedInfoN getId cache fetch url).cacheAfter = cache ∧
    (getCachedInfoN getId cache fetch url).attempts = 1 ∧
    (getCachedInfoN getId
        (getCachedInfoN getId cache fetch url).cacheAfter fetch2 url).attempts
      = 1 := by
  have hbase : getCachedInfoN getId cache fetch url =
      ⟨.error e, cache, 1, []⟩ := by
    simp only [getCachedInfoN]
    rw [hmiss, hfail]
  refine ⟨by rw [hbase], by rw [hbase], by rw [hbase], ?_⟩
  rw [hbase]
  show (getCachedInfoN getId cache fetch2 url).attempts = 1
  simp only [getCachedInfoN]
  rw [hmiss]
  cases fetch2 0 <;> rfl

/-- Witness for C10: a concrete failing fetch against an empty cache. -/
theorem failed_fetch_witness :
    (getCachedInfoN idOf [] (fun _ => .error errTransient) "u").cacheAfter
      = [] ∧
    (getCachedInfoN idOf
        (getCachedInfoN idOf [] (fun _ => .error errTransient) "u").cacheAfter
        (fetchOkOracle "u") "u").attempts = 1 :=
  ⟨(failed_fetch_leaves_cache_unchanged idOf [] (fun _ => .error errTransient)
      (fetchOkOracle "u") "u" errTransient rfl rfl).2.1,
   (failed_fetch_leaves_cache_unchanged idOf [] (fun _ => .error errTransient)
      (fetchOkOracle "u") "u" errTransient rfl rfl).2.2.2⟩

/-- C3 counterexample: on a transient first-attempt failure followed by
an attempt that would succeed, the claimed retry policy returns the
successful metadata after a 500ms backoff, but `getCachedInfo` makes
exactly one attempt and surfaces the first error: no retry exists in
the code. -/
theorem no_retry_counterexample :
    isRateLimited errTransient = false ∧
    resolveSpecModel fetchFailThenOk = (.ok sampleInfo, [500]) ∧
    getCachedInfoN idOf [] fetchFailThenOk "u" =
      ⟨.error errTransient, [], 1, []⟩ := by decide

/-- C3 (amended): on a cache miss `getCachedInfo` makes exactly one
fetch attempt, performs no backoff delay, and returns the attempt's
outcome unchanged — a transient failure is surfaced immediately, never
retried. -/
theorem resolve_single_attempt_no_backoff
    (getId : String → String) (cache : List (String × Info))
    (fetch : Nat → Except ResolveErr Info) (url : String)
    (hmiss : lookupA cache (getId url) = none) :
    (getCachedInfoN getId cache fetch url).attempts = 1 ∧
    (getCachedInfoN getId cache fetch url).delays = [] ∧
    (getCachedInfoN getId cache fetch url).result = fetch 0 := by
  simp only [getCachedInfoN]
  rw [hmiss]
  cases h : fetch 0 <;> simp [h]

/-- Witness for the amended C3 at a concrete transient failure. -/
theorem resolve_single_attempt_witness :
    (getCachedInfoN idOf [] fetchFailThenOk "u").attempts = 1 ∧
    (getCachedInfoN idOf [] fetchFailThenOk "u").delays = [] ∧
    (getCachedInfoN idOf [] fetchFailThenOk "u").result = fetchFailThenOk 0 :=
  resolve_single_attempt_no_backoff idOf [] fetchFailThenOk "u" rfl

/-- C4 counterexample: on an upstream failure whose message carries
`429`, the cookie-agent variant answers 429 with a static text, no
`Retry-After` header and no retry-after value (no default of 60
exists anywhere), while the cached variant answers 500, not 429. -/
theorem rate_limited_no_retry_after_counterexample :
    isRateLimited err429 = true ∧
    (part000InfoCatch err429.msg).status = 429 ∧
    (part000InfoCatch err429.msg).headers = [] ∧
    (part000InfoCatch err429.msg).headers.find?
        (fun p => p.1 == "Retry-After") = none ∧
    (serverInfoCatch err429.msg).status = 500 := by decide

/-- C4 (amended): a fetch failure whose message contains `429` or
`rate limit` is answered by the cookie-agent variant with a bare 429
and a static message — no `Retry-After` header and no retry-after
value; the cached variant answers 500 for every resolver failure; and
no retry or backoff happens anywhere (`getCachedInfo` never makes a
second attempt). -/
theorem rate_limited_classification
    (msg : String)
    (hrl : (containsSubstr msg "429" || containsSubstr msg "rate limit")
      = true) :
    part000InfoCatch msg =
      ⟨429,
       "YouTube is currently rate limiting requests. Please try again in a few minutes, or try a different video.",
       []⟩ ∧
    (part000InfoCatch msg).headers.find?
        (fun p => p.1 == "Retry-After") = none ∧
    serverInfoCatch msg =
      ⟨500, if msg == "" then "Failed to fetch media info" else msg, []⟩ ∧
    (∀ (getId : String → String) (cache : List (String × Info))
        (fetch : Nat → Except ResolveErr Info) (url : String),
      (getCachedInfoN getId cache fetch url).attempts ≤ 1 ∧
      (getCachedInfoN getId cache fetch url).delays = []) := by
  refine ⟨?_, ?_, rfl, ?_⟩
  · unfold part000InfoCatch
    rw [if_pos hrl]
  · unfold part000InfoCatch
    rw [if_pos hrl]
    rfl
  · intro getId cache fetch url
    simp only [getCachedInfoN]
    rcases h : lookupA cache (getId url) with _ | info
    · rcases h2 : fetch 0 with e | v <;> simp [h, h2]
    · simp [h]

/-- Witness for the amended C4 at the concrete 429 failure. -/
theorem rate_limited_classification_witness :
    part000InfoCatch err429.msg =
      ⟨429,
       "YouTube is currently rate limiting requests. Please try again in a few minutes, or try a different video.",
       []⟩ ∧
    serverInfoCatch err429.msg = ⟨500, err429.msg, []⟩ :=
  ⟨(rate_limited_classification err429.msg (by decide)).1,
   by
    have h := (rate_limited_classification err429.msg (by decide)).2.2.1
    simpa using h⟩

/-- C5: when no resolved format is a progressive mp4 carrying both
audio and video, `/api/download/mp4` answers 400 `No compatible MP4
stream` without opening any byte stream; when at least one matches,
the first match in resolver order is the one streamed. -/
theorem mp4_selection_and_no_stream
    (validate : String → Bool) (getId : String → String)
    (fetch : String → Nat → Except ResolveErr Info)
    (cache : List (String × Info)) (url : String) (info : Info)
    (hv : validate url = true)
    (hres : (getCachedInfoN getId cache (fetch url) url).result = .ok info) :
    ((∀ f ∈ info.formats, mp4Filter f = false) →
        (mp4Endpoint validate getId fetch cache (some url)).status = 400 ∧
        (mp4Endpoint validate getId fetch cache (some url)).errorMsg =
          some "No compatible MP4 stream" ∧
        (mp4Endpoint validate getId fetch cache (some url)).actions = []) ∧
    (∀ f, info.formats.find? mp4Filter = some f →
        mp4Filter f = true ∧
        (∃ l₁ l₂, info.formats = l₁ ++ f :: l₂ ∧
          ∀ g ∈ l₁, mp4Filter g = false) ∧
        (mp4Endpoint validate getId fetch cache (some url)).actions =
          [.setHeader "Content-Disposition"
             ("attachment; filename=\"" ++ sanitizeTitle80 info.title ++
               ".mp4\""),
           .setHeader "Content-Type" "video/mp4",
           .streamBody f]) := by
  constructor
  · intro hnone
    have hfind : info.formats.find? mp4Filter = none := by
      rw [List.find?_eq_none]
      intro x hx
      simp [hnone x hx]
    simp [mp4Endpoint, hv, hres, hfind]
  · intro f hfind
    obtain ⟨l₁, l₂, hsplit, hall, hpf⟩ :=
      find_first_split mp4Filter info.formats f hfind
    exact ⟨hpf, ⟨l₁, l₂, hsplit, hall⟩,
      by simp [mp4Endpoint, hv, hres, hfind]⟩

/-- Witness for C5: `sampleInfo` holds one progressive mp4 format and
it is the one streamed after the headers. -/
theorem mp4_selection_witness :
    (mp4Endpoint allValid idOf fetchOkOracle [] (some "u")).actions =
      [.setHeader "Content-Disposition"
         ("attachment; filename=\"" ++ sanitizeTitle80 sampleInfo.title ++
           ".mp4\""),
       .setHeader "Content-Type" "video/mp4",
       .streamBody fmtProg] :=
  ((mp4_selection_and_no_stream allValid idOf fetchOkOracle [] "u"
      sampleInfo rfl rfl).2 fmtProg (by decide)).2.2

/-- Every character surviving `replace(/[^\w\s-]/g, '')` satisfies
`keepChar`. -/
theorem sanitize_mem_keep {t : String} {k : Nat} {c : Char}
    (h : c ∈ (t.toList.filter keepChar).take k) : keepChar c = true :=
  (List.mem_filter.mp (List.take_subset _ _ h)).2

/-- Unfolding of the kept character class: ASCII letter, digit,
underscore, whitespace or hyphen. -/
theorem keepChar_cases (c : Char) (h : keepChar c = true) :
    c.isAlpha = true ∨ c.isDigit = true ∨ c = '_' ∨ isSpaceChar c = true ∨
      c = '-' := by
  simp only [keepChar, isWordChar, Char.isAlphanum, Bool.or_eq_true,
    beq_iff_eq] at h
  tauto

/-- C7 counterexample: the sanitizer keeps underscores — `\w` matches
`_` — so the output is not restricted to letters, digits, whitespace
and hyphen; and the cookie-agent variant truncates at 100 characters,
not 80. -/
theorem sanitize_underscore_counterexample :
    sanitizeTitle80 "_" = "_" ∧ specAllowedChar '_' = false ∧
    (sanitizeTitle100 (String.mk (List.replicate 90 'a'))).length = 90 ∧
    80 < (sanitizeTitle100 (String.mk (List.replicate 90 'a'))).length := by
  decide

/-- C7 (amended): the sanitized filename contains only ASCII letters,
digits, underscore, whitespace or hyphen; the cached variant truncates
it to at most 80 characters and the cookie-agent variant to at most
100; and `/api/download/mp3` sets the `Content-Disposition` attachment
filename and the `audio/mpeg` MIME type before the stream is piped. -/
theorem sanitize_charset_and_header_order
    (t : String) (validate : String → Bool) (getId : String → String)
    (fetch : String → Nat → Except ResolveErr Info)
    (cache : List (String × Info)) (url : String) (info : Info) (f : Format)
    (hv : validate url = true)
    (hres : (getCachedInfoN getId cache (fetch url) url).result = .ok info)
    (hsel : selectAudio info.formats = some f) :
    (sanitizeTitle80 t).length ≤ 80 ∧
    (∀ c ∈ (sanitizeTitle80 t).toList,
        c.isAlpha = true ∨ c.isDigit = true ∨ c = '_' ∨
          isSpaceChar c = true ∨ c = '-') ∧
    (sanitizeTitle100 t).length ≤ 100 ∧
    (∀ c ∈ (sanitizeTitle100 t).toList,
        c.isAlpha = true ∨ c.isDigit = true ∨ c = '_' ∨
          isSpaceChar c = true ∨ c = '-') ∧
    (mp3Endpoint validate getId fetch cache (some url)).status = 200 ∧
    (mp3Endpoint validate getId fetch cache (some url)).actions =
      [.setHeader "Content-Disposition"
         ("attachment; filename=\"" ++ sanitizeTitle80 info.title ++
           ".mp3\""),
       .setHeader "Content-Type" "audio/mpeg",
       .streamBody f] := by
  refine ⟨?_, ?_, ?_, ?_, ?_, ?_⟩
  · show ((t.toList.filter keepChar).take 80).length ≤ 80
    rw [List.length_take]
    exact Nat.min_le_left _ _
  · intro c hc
    exact keepChar_cases c (sanitize_mem_keep hc)
  · show ((t.toList.filter keepChar).take 100).length ≤ 100
    rw [List.length_take]
    exact Nat.min_le_left _ _
  · intro c hc
    exact keepChar_cases c (sanitize_mem_keep hc)
  · simp [mp3Endpoint, hv, hres, hsel]
  · simp [mp3Endpoint, hv, hres, hsel]

/-- Witness for the amended C7 at a concrete title and request. -/
theorem sanitize_charset_witness :
    (sanitizeTitle80 "Sample: Title! (_ok_)").length ≤ 80 ∧
    (mp3Endpoint allValid idOf fetchOkOracle [] (some "u")).actions =
      [.setHeader "Content-Disposition"
         ("attachment; filename=\"" ++ sanitizeTitle80 sampleInfo.title ++
           ".mp3\""),
       .setHeader "Content-Type" "audio/mpeg",
       .streamBody fmtAudio256] :=
  ⟨(sanitize_charset_and_header_order "Sample: Title! (_ok_)" allValid idOf
      fetchOkOracle [] "u" sampleInfo fmtAudio256 rfl rfl (by decide)).1,
   (sanitize_charset_and_header_order "Sample: Title! (_ok_)" allValid idOf
      fetchOkOracle [] "u" sampleInfo fmtAudio256 rfl rfl
      (by decide)).2.2.2.2.2⟩

/-- C8 counterexample: a non-empty format list with no audio format
makes the audio selection return nothing at all, so it does not return
a format with `hasAudio` true for every non-empty list. -/
theorem selectaudio_nonempty_counterexample :
    ([fmtVideoOnly] ≠ ([] : List Format)) ∧
    selectAudio [fmtVideoOnly] = none := by decide

/-- C8 (amended): for every format list containing at least one format
with audio, the selection returns an audio format of maximal quality
ranking among the candidate class (audio-only formats when any exist,
otherwise all formats with audio), ties broken by first-listed resolver
order: everything strictly before the chosen format ranks strictly
lower, everything after ranks no higher. -/
theorem selectaudio_max_quality
    (formats : List Format)
    (h : ∃ f ∈ formats, f.hasAudio = true) :
    ∃ m l₁ l₂, selectAudio formats = some m ∧ m.hasAudio = true ∧
      audioCands formats = l₁ ++ m :: l₂ ∧
      (∀ x ∈ l₁, x.audioBitrate < m.audioBitrate) ∧
      (∀ x ∈ l₂, x.audioBitrate ≤ m.audioBitrate) := by
  obtain ⟨f, hf, hfa⟩ := h
  have hne : audioCands formats ≠ [] := by
    unfold audioCands
    cases hE : (formats.filter audioOnlyF).isEmpty
    · simp only [hE, Bool.false_eq_true, if_false]
      intro hc
      rw [hc] at hE
      simp at hE
    · simp only [hE, if_true]
      have hmem : f ∈ formats.filter (fun g => g.hasAudio) :=
        List.mem_filter.mpr ⟨hf, hfa⟩
      exact List.ne_nil_of_mem hmem
  obtain ⟨m, l₁, l₂, hpick, hsplit, hlt, hle⟩ :=
    pickBest_first_max (audioCands formats) hne
  have hmem : m ∈ audioCands formats := by
    rw [hsplit]
    simp
  have haud : m.hasAudio = true := by
    unfold audioCands at hmem
    cases hE : (formats.filter audioOnlyF).isEmpty
    · simp only [hE, Bool.false_eq_true, if_false] at hmem
      have := (List.mem_filter.mp hmem).2
      simp only [audioOnlyF, Bool.and_eq_true] at this
      exact this.1
    · simp only [hE, if_true] at hmem
      exact (List.mem_filter.mp hmem).2
  exact ⟨m, l₁, l₂, hpick, haud, hsplit, hlt, hle⟩

/-- Witness for the amended C8 at the spec's own bitrate example:
between audio-only formats of bitrates 128 and 256 the 256 one is
selected. -/
theorem selectaudio_max_witness :
    selectAudio [fmtAudio128, fmtAudio256] = some fmtAudio256 ∧
    (∃ m l₁ l₂, selectAudio [fmtAudio128, fmtAudio256] = some m ∧
      m.hasAudio = true ∧
      audioCands [fmtAudio128, fmtAudio256] = l₁ ++ m :: l₂ ∧
      (∀ x ∈ l₁, x.audioBitrate < m.audioBitrate) ∧
      (∀ x ∈ l₂, x.audioBitrate ≤ m.audioBitrate)) :=
  ⟨by decide,
   selectaudio_max_quality [fmtAudio128, fmtAudio256]
     ⟨fmtAudio128, by decide, by decide⟩⟩

/-- `/api/info` can only answer 200, 400 or 500: no code path in the
handler produces a 429 (the local rejection the claim describes does
not exist). -/
theorem infoEndpoint_status_cases (validate : String → Bool)
    (getId : String → String)
    (fetch : String → Nat → Except ResolveErr Info)
    (cache : List (String × Info)) (urlBody : Option String) :
    (infoEndpoint validate getId fetch cache urlBody).status = 200 ∨
    (infoEndpoint validate getId fetch cache urlBody).status = 400 ∨
    (infoEndpoint validate getId fetch cache urlBody).status = 500 := by
  rcases urlBody with _ | url
  · right; left; rfl
  · by_cases hv : validate url
    · simp only [infoEndpoint, hv, if_true]
      rcases hr : (getCachedInfoN getId cache (fetch url) url).result
        with e | info
      · simp [hr]
      · rcases hp : projectInfo info with _ | v <;> simp [hr, hp]
    · simp [infoEndpoint, hv, invalidOutcome]

/-- The server answers every request: one outcome per request, none
dropped or deferred by any throttle. -/
theorem processInfoRequests_length (validate : String → Bool)
    (getId : String → String)
    (fetch : String → Nat → Except ResolveErr Info)
    (cache : List (String × Info)) (reqs : List ClientReq) :
    (processInfoRequests validate getId fetch cache reqs).length =
      reqs.length := by
  induction reqs generalizing cache with
  | nil => rfl
  | cons r rs ih =>
    simp only [processInfoRequests, List.length_cons]
    rw [ih]

/-- Request handling reads only the body URL: outcomes are unchanged
under any change of client address or arrival time. -/
theorem processInfoRequests_urlBody_only (validate : String → Bool)
    (getId : String → String)
    (fetch : String → Nat → Except ResolveErr Info)
    (cache : List (String × Info)) (reqs reqs' : List ClientReq)
    (h : reqs.map (fun r => r.urlBody) = reqs'.map (fun r => r.urlBody)) :
    processInfoRequests validate getId fetch cache reqs =
      processInfoRequests validate getId fetch cache reqs' := by
  induction reqs generalizing reqs' cache with
  | nil =>
    cases reqs' with
    | nil => rfl
    | cons r' rs' => simp at h
  | cons r rs ih =>
    cases reqs' with
    | nil => simp at h
    | cons r' rs' =>
      simp only [List.map_cons, List.cons.injEq] at h
      obtain ⟨hhd, htl⟩ := h
      simp only [processInfoRequests, hhd]
      rw [ih (infoEndpoint validate getId fetch cache r'.urlBody).cacheAfter
        rs' htl]

/-- C9 counterexample: twenty-one valid requests from one client
address, all inside a 60-second window, are all fully processed with
status 200 — the twenty-first is not rejected, no 429 and no static
rate-limit message exist in this pipeline. -/
def reqs21 : List ClientReq :=
  (List.range 21).map (fun k => ⟨"203.0.113.7", k, some "https://youtu.be/x"⟩)

/-- C9 counterexample theorem (see `reqs21`). -/
theorem no_local_rate_limit_counterexample :
    reqs21.length = 21 ∧
    (∀ r ∈ reqs21, r.addr = "203.0.113.7" ∧ r.time < 60) ∧
    (processInfoRequests allValid idOf fetchOkOracle [] reqs21).map
        (fun o => o.status) = List.replicate 21 200 := by decide

/-- C9 (amended): the code wires no per-client rate limiter: every
request is processed (one outcome each), `/api/info` outcomes are
always 200, 400 or 500 — never a local rate-limit 429 — and the
outcome sequence depends only on the request bodies, not on client
addresses, arrival times or how many requests preceded them. -/
theorem no_rate_limiter (validate : String → Bool)
    (getId : String → String)
    (fetch : String → Nat → Except ResolveErr Info)
    (cache : List (String × Info)) (reqs : List ClientReq) :
    (processInfoRequests validate getId fetch cache reqs).length =
      reqs.length ∧
    (∀ o ∈ processInfoRequests validate getId fetch cache reqs,
        o.status = 200 ∨ o.status = 400 ∨ o.status = 500) ∧
    (∀ reqs', reqs.map (fun r => r.urlBody) =
        reqs'.map (fun r => r.urlBody) →
      processInfoRequests validate getId fetch cache reqs =
        processInfoRequests validate getId fetch cache reqs') := by
  refine ⟨processInfoRequests_length validate getId fetch cache reqs, ?_,
    fun reqs' h =>
      processInfoRequests_urlBody_only validate getId fetch cache reqs
        reqs' h⟩
  induction reqs generalizing cache with
  | nil => intro o ho; simp [processInfoRequests] at ho
  | cons r rs ih =>
    intro o ho
    simp only [processInfoRequests, List.mem_cons] at ho
    rcases ho with ho | ho
    · rw [ho]
      exact infoEndpoint_status_cases validate getId fetch cache r.urlBody
    · exact ih _ o ho

/-- Witness for the amended C9: the outcomes for one request are the
same whatever the client address and time are. -/
theorem no_rate_limiter_witness :
    processInfoRequests allValid idOf fetchOkOracle []
        [⟨"198.51.100.1", 0, some "u"⟩] =
      processInfoRequests allValid idOf fetchOkOracle []
        [⟨"203.0.113.7", 59, some "u"⟩] :=
  (no_rate_limiter allValid idOf fetchOkOracle []
      [⟨"198.51.100.1", 0, some "u"⟩]).2.2
    [⟨"203.0.113.7", 59, some "u"⟩] (by decide)

/-- A URL for the traced resource (normalized by `idOf`). -/
def vidUrl : String := "https://youtu.be/x"

/-- C1 counterexample schedule: resolve at time 0, then a lookup at
time `TTLms + 1` — one millisecond past expiry — while the deletion
timer, though due, has not yet been run by the event loop. -/
def schedStale : List (Nat × Event) :=
  [(0, .arrive vidUrl), (0, .fetchOk 0 sampleInfo),
   (TTLms + 1, .arrive vidUrl)]

/-- C1 counterexample: on the valid schedule `schedStale` the lookup at
`TTLms + 1` returns the entry created at time 0 and no fresh resolve
occurs (`calls` stays 1), because lookups never check entry age and the
pending deletion timer (due at `TTLms`) has not fired yet. -/
theorem stale_entry_after_ttl_counterexample :
    timesMono schedStale = true ∧
    validSeq idOf initState schedStale = true ∧
    (runSched idOf schedStale).tasks.get? 1 =
      some (.done (.ok sampleInfo)) ∧
    (runSched idOf schedStale).calls = 1 ∧
    (runSched idOf schedStale).timers = [(TTLms, "dQw4w9WgXcQ")] := by
  decide

/-- C1 (amended): expiry is purely timer-driven. A deletion timer is
scheduled for creation time + 30 minutes and is only runnable at or
after that due time; once it fires the entry is gone, so the next
request for the identifier performs a fresh upstream resolve. Lookups
themselves perform no age check, so until the timer actually runs an
entry older than 30 minutes is still returned (see the
counterexample). -/
theorem ttl_deletion_semantics (getId : String → String) (st : SysState)
    (t : Nat) (id : String) (i : Nat) (url : String) (info : Info) :
    (validEvent st (t, .timerFire id) = true →
        lookupA (exec getId st (t, .timerFire id)).cache id = none ∧
        ∃ due, (due, id) ∈ st.timers ∧ due ≤ t) ∧
    (st.tasks.get? i = some (.awaitingFetch id) →
        (exec getId st (t, .fetchOk i info)).timers =
          st.timers ++ [(t + TTLms, id)] ∧
        lookupA (exec getId st (t, .fetchOk i info)).cache id =
          some info) ∧
    (lookupA st.cache (getId url) = none →
        (exec getId st (t, .arrive url)).calls = st.calls + 1) := by
  refine ⟨?_, ?_, ?_⟩
  · intro hval
    simp only [validEvent] at hval
    constructor
    · simp only [exec, hval, if_true]
      exact lookupA_delA st.cache id
    · rw [List.any_eq_true] at hval
      obtain ⟨p, hp, hcond⟩ := hval
      rcases p with ⟨due, s⟩
      rw [Bool.and_eq_true] at hcond
      obtain ⟨h1, h2⟩ := hcond
      have hs : s = id := by simpa using h1
      subst hs
      exact ⟨due, hp, Nat.le_of_ble_eq_true h2⟩
  · intro htask
    constructor
    · simp only [exec, htask]
    · simp only [exec, htask]
      exact lookupA_setA st.cache id info
  · intro hmiss
    simp only [exec, hmiss]

/-- A state exercising every hypothesis of the amended C1 and C2: an
entry and a due timer for `vid`, one task awaiting a fetch for `vid`,
and no entry for `other`. -/
def stW : SysState :=
  ⟨[("vid", sampleInfo)], [(5, "vid")], 3, [.awaitingFetch "vid"]⟩

/-- Witness for the amended C1 at the concrete state `stW`. -/
theorem ttl_deletion_semantics_witness :
    lookupA (exec idFun stW (10, .timerFire "vid")).cache "vid" = none ∧
    (exec idFun stW (10, .fetchOk 0 sampleInfo)).timers =
      stW.timers ++ [(10 + TTLms, "vid")] ∧
    (exec idFun stW (10, .arrive "other")).calls = stW.calls + 1 :=
  ⟨((ttl_deletion_semantics idFun stW 10 "vid" 0 "other" sampleInfo).1
      (by decide)).1,
   ((ttl_deletion_semantics idFun stW 10 "vid" 0 "other" sampleInfo).2.1
      (by decide)).1,
   (ttl_deletion_semantics idFun stW 10 "vid" 0 "other" sampleInfo).2.2
     (by decide)⟩

/-- C2 counterexample schedule: two requests for the same resource
arrive while the first fetch is still in flight. -/
def schedDouble : List (Nat × Event) :=
  [(0, .arrive vidUrl), (0, .arrive vidUrl),
   (0, .fetchOk 0 sampleInfo), (0, .fetchOk 1 sampleInfo)]

/-- C2 counterexample: on the valid schedule `schedDouble`, both
requests normalize to one identifier and the second arrives while the
first resolve is in flight, yet `ytdl.getInfo` is invoked twice — the
code has no single-flight table, so concurrent misses each call
upstream. -/
theorem duplicate_resolve_counterexample :
    timesMono schedDouble = true ∧
    validSeq idOf initState schedDouble = true ∧
    (runSched idOf schedDouble).calls = 2 := by decide

/-- C2 (amended): a request finding the entry in the cache reuses it
with no upstream call, but a request that misses always starts its own
upstream call — even when a resolve for the same identifier is already
in flight (see the counterexample); reuse begins only once a resolve
has completed and stored its entry. -/
theorem coalescing_only_after_completion (getId : String → String)
    (st : SysState) (t : Nat) (url : String) (info : Info) (i : Nat) :
    (lookupA st.cache (getId url) = none →
        (exec getId st (t, .arrive url)).calls = st.calls + 1 ∧
        (exec getId st (t, .arrive url)).tasks =
          st.tasks ++ [.awaitingFetch (getId url)]) ∧
    (lookupA st.cache (getId url) = some info →
        (exec getId st (t, .arrive url)).calls = st.calls ∧
        (exec getId st (t, .arrive url)).tasks =
          st.tasks ++ [.done (.ok info)] ∧
        (exec getId st (t, .arrive url)).cache = st.cache) ∧
    (st.tasks.get? i = some (.awaitingFetch (getId url)) →
        lookupA (exec getId st (t, .fetchOk i info)).cache (getId url) =
          some info) := by
  refine ⟨?_, ?_, ?_⟩
  · intro hmiss
    constructor
    · simp only [exec, hmiss]
    · simp only [exec, hmiss]
  · intro hhit
    refine ⟨?_, ?_, ?_⟩ <;> simp only [exec, hhit]
  · intro htask
    simp only [exec, htask]
    exact lookupA_setA st.cache (getId url) info

/-- Witness for the amended C2 at the concrete state `stW`. -/
theorem coalescing_witness :
    (exec idFun stW (7, .arrive "other")).calls = stW.calls + 1 ∧
    (exec idFun stW (7, .arrive "vid")).calls = stW.calls ∧
    lookupA (exec idFun stW (7, .fetchOk 0 sampleInfo)).cache "vid" =
      some sampleInfo :=
  ⟨((coalescing_only_after_completion idFun stW 7 "other" sampleInfo 0).1
      (by decide)).1,
   ((coalescing_only_after_completion idFun stW 7 "vid" sampleInfo 0).2.1
      (by decide)).1,
   (coalescing_only_after_completion idFun stW 7 "vid" sampleInfo 0).2.2
     (by decide)⟩

end YtConv
